import Mathlib

/-
Shallow embedding of the sales-data normalizing pipeline from
src/streamlit_app.py.  The pipeline reads an Excel sheet with a two-row
header (pandas `read_excel(..., header=[3,4], dtype=object)`), flattens the
header, renames the first 16 columns positionally to FINAL_COLS, cleans
strings, drops all-missing rows, parses dates (dayfirst), truncates the
store name to its last 4 characters, coerces the 10 numeric columns, keeps
only rows with Gross Sales > 0, and drops all-missing rows once more.

Modelling decisions (documented per definition below):
* A cell of the object-dtype frame is `Cell`: `nan` (numpy NaN / NaT),
  `na` (pandas NA, introduced by the string-cleanup replace), a text value,
  a numeric value (ℚ standing for float64), or a parsed date.
* Raw tables as produced by `read_excel(dtype=object)` are modelled with
  cells that are text or blank (`nan`); every pandas operation the pipeline
  applies first renders cells to text via `astype(str)`, so the pipeline's
  behaviour factors through that textual rendering.
* Python float repr round-trips exactly through `float()`, so
  `pd.to_numeric(series.astype(str) ...)` on an already-numeric cell returns
  the identical number; the embedding states this as the `num` case of
  `toNumericCell`.
-/

namespace SalesNormalizer

/-- Calendar date as produced by `pd.to_datetime` (time-of-day is always
midnight for the date strings this template carries, so it is omitted). -/
structure SimpleDate where
  year : Nat
  month : Nat
  day : Nat
deriving DecidableEq

/-- One cell of the object-dtype data frame.  `nan` is numpy NaN (also
standing for NaT, the missing date), `na` is pandas NA (what the cleanup
stage's `.replace` inserts); both are "missing" for `dropna` / `notna`.  -/
inductive Cell where
  | nan
  | na
  | text (s : String)
  | num (q : ℚ)
  | date (d : SimpleDate)
deriving DecidableEq

/-- A data row: the list of its cells in column order. -/
abbrev Row := List Cell

/-- One column label of the raw frame: either a scalar label or a
MultiIndex tuple of labels, each possibly null — the two cases
`_flatten_columns` distinguishes with `isinstance(c, tuple)`. -/
inductive RawHeader where
  | scalar (l : Option String)
  | tuple (ls : List (Option String))
deriving DecidableEq

/-- The raw sheet as read by `pd.read_excel(..., header=[3,4], dtype=object)`:
column labels plus rows of cells.  Raw cells are text or blank (`Cell.nan`);
see the module comment. -/
structure RawTable where
  headers : List RawHeader
  rows : List Row

/-- The normalized output frame: its column names and its rows. -/
structure CanonicalTable where
  cols : List String
  rows : List Row

/-- FINAL_COLS from src/streamlit_app.py lines 10-27. -/
def FINAL_COLS : List String :=
  ["Row No.", "Store Code", "Store Name", "Date", "Gross Sales", "Net Sales",
   "Discounted", "Item Void", "Void Value", "Item Refund", "Refund Value",
   "Terminal", "Unnamed", "Quantity", "Transaction",
   "Average Transaction Value"]

/-- NUMERIC_COLS from src/streamlit_app.py lines 29-40 (a Python set; listed
here in the source's order). -/
def NUMERIC_COLS : List String :=
  ["Gross Sales", "Net Sales", "Discounted", "Item Void", "Void Value",
   "Item Refund", "Refund Value", "Quantity", "Transaction",
   "Average Transaction Value"]

/-- Python `str.strip()` (as used by pandas `.str.strip()` and by
`str(x).strip()` in `_flatten_columns`): remove leading and trailing
whitespace. -/
def pyStrip (s : String) : String :=
  String.mk (((s.data.dropWhile Char.isWhitespace).reverse.dropWhile
      Char.isWhitespace).reverse)

/-- Python slice `s[-4:]` (pandas `.str[-4:]` in `_store_name_last4`):
the last 4 characters, or the whole string when it is shorter. -/
def pyLast4 (s : String) : String :=
  String.mk (s.data.drop (s.data.length - 4))

/-- pandas `astype(str)` / Python `str()` rendering of a cell.
`str(nan) = "nan"`, `str(pd.NA) = "<NA>"`, a string renders as itself.
The `num` and `date` cases never reach an `astype(str)` call site in the
pipeline (each `astype(str)` there is applied to a column whose cells are
text or missing at that point), so their rendering is chosen simply. -/
def pyStrCell : Cell → String
  | Cell.nan => "nan"
  | Cell.na => "<NA>"
  | Cell.text s => s
  | Cell.num q => toString q
  | Cell.date d =>
      toString d.year ++ "-" ++ toString d.month ++ "-" ++ toString d.day

/-- Is the cell a missing-value marker for pandas `dropna` / `notna`? -/
def isMissing : Cell → Bool
  | Cell.nan => true
  | Cell.na => true
  | _ => false

/-- String-cleanup of one cell, src/streamlit_app.py line 132:
`df[c].astype(str).str.strip().replace({"": pd.NA, "nan": pd.NA, "None": pd.NA})`. -/
def cleanupCell (v : Cell) : Cell :=
  let s := pyStrip (pyStrCell v)
  if s = "" ∨ s = "nan" ∨ s = "None" then Cell.na else Cell.text s

/-- The value of a nonempty list of decimal digits. -/
def digitsVal (cs : List Char) : Nat :=
  cs.foldl (fun a c => a * 10 + (c.toNat - 48)) 0

/-- Parse a nonempty all-digit character list. -/
def parseDigits (cs : List Char) : Option Nat :=
  if !cs.isEmpty && cs.all (fun c => c.isDigit) then some (digitsVal cs)
  else none

/-- Parse an unsigned decimal mantissa: digits with at most one dot and at
least one digit overall (`"1."` and `".5"` are accepted, as by Python
`float`).  The result is the mantissa digits as a number together with the
number of digits after the dot. -/
def parseMantissa (cs : List Char) : Option (Nat × Nat) :=
  match cs.splitOn '.' with
  | [ip] => (parseDigits ip).map (fun n => (n, 0))
  | [ip, fp] =>
      if (!ip.isEmpty || !fp.isEmpty) && ip.all (fun c => c.isDigit)
          && fp.all (fun c => c.isDigit) then
        some (digitsVal (ip ++ fp), fp.length)
      else none
  | _ => none

/-- Parse an optionally signed decimal exponent. -/
def parseExpPart (cs : List Char) : Option Int :=
  match cs with
  | '+' :: ds => (parseDigits ds).map (fun n => (n : Int))
  | '-' :: ds => (parseDigits ds).map (fun n => -(n : Int))
  | ds => (parseDigits ds).map (fun n => (n : Int))

/-- The rational value `±m * 10 ^ (e - f)` of a parsed literal with
mantissa digits `m`, `f` digits after the dot and exponent `e`. -/
def ratOfParts (neg : Bool) (m : Nat) (f : Nat) (e : Int) : ℚ :=
  let sm : Int := if neg then -(m : Int) else (m : Int)
  let shift : Int := e - (f : Int)
  if 0 ≤ shift then mkRat (sm * ((10 : Nat) ^ shift.toNat : Nat)) 1
  else mkRat sm ((10 : Nat) ^ (-shift).toNat)

/-- Parse an unsigned decimal literal with an optional exponent part into
mantissa digits, fractional length and exponent. -/
def parseUnsigned (cs : List Char) : Option (Nat × Nat × Int) :=
  match cs.splitOn 'e' with
  | [m] => (parseMantissa m).map (fun p => (p.1, p.2, (0 : Int)))
  | [m, ex] =>
      match parseMantissa m, parseExpPart ex with
      | some p, some e => some (p.1, p.2, e)
      | _, _ => none
  | _ => none

/-- The numeric parse performed by `pd.to_numeric(..., errors="coerce")` on
a string: surrounding whitespace is tolerated, an optional sign, then a
finite decimal literal with optional exponent (either case of `e`).
`none` is the parse failure that `errors="coerce"` turns into NaN.
Embedding scope: the non-finite spellings `inf`/`nan` accepted by the
pandas parser are outside ℚ and are treated as parse failures. -/
def parseFloat (s : String) : Option ℚ :=
  let cs := (pyStrip s).data.map (fun c => if c = 'E' then 'e' else c)
  match cs with
  | '+' :: rest =>
      (parseUnsigned rest).map (fun p => ratOfParts false p.1 p.2.1 p.2.2)
  | '-' :: rest =>
      (parseUnsigned rest).map (fun p => ratOfParts true p.1 p.2.1 p.2.2)
  | _ => (parseUnsigned cs).map (fun p => ratOfParts false p.1 p.2.1 p.2.2)

/-- `str.replace(",", "", regex=False)` from `_coerce_numeric` and
`_filter_gross_sales_numeric_positive`: remove every comma. -/
def stripCommas (s : String) : String :=
  String.mk (s.data.filter (fun c => c ≠ ','))

/-- One cell under
`pd.to_numeric(series.astype(str).str.replace(",", "", regex=False), errors="coerce")`
(src/streamlit_app.py lines 64-70 and 86-92).
A text cell is parsed after comma stripping, parse failure gives NaN.
A numeric cell renders via `str()` to its shortest round-tripping repr and
parses back to the identical number, hence the identity `num` case.
Missing cells render to `"nan"` / `"<NA>"` and dates to a timestamp string,
all of which `to_numeric` coerces to NaN. -/
def toNumericCell (v : Cell) : Cell :=
  match v with
  | Cell.num q => Cell.num q
  | Cell.text s =>
      match parseFloat (stripCommas s) with
      | some q => Cell.num q
      | none => Cell.nan
  | _ => Cell.nan

/-- Gregorian leap year. -/
def isLeap (y : Nat) : Bool :=
  y % 4 = 0 && (y % 100 ≠ 0 || y % 400 = 0)

/-- Days in a month. -/
def daysInMonth (y m : Nat) : Nat :=
  if m = 2 then (if isLeap y then 29 else 28)
  else if m = 4 ∨ m = 6 ∨ m = 9 ∨ m = 11 then 30
  else 31

/-- Is day `d`, month `m`, year `y` a real calendar date? -/
def validDMY (d m y : Nat) : Bool :=
  1 ≤ m && m ≤ 12 && 1 ≤ d && d ≤ daysInMonth y m

/-- Two-digit years are windowed the way `dateutil` does it: 00-49 land in
the 2000s, 50-99 in the 1900s; longer year strings are taken literally. -/
def expandYear (y : Nat) (ndigits : Nat) : Nat :=
  if ndigits ≤ 2 then (if y < 50 then 2000 + y else 1900 + y) else y

/-- `pd.to_datetime(..., errors="coerce", dayfirst=True)` on one date text,
src/streamlit_app.py lines 72-74.  Embedding scope: the numeric
slash-separated format `d/m/y`.  With `dayfirst=True` the first component
is preferred as the day; when that is not a real date the parser falls back
to month-first (as dateutil does); failure is `none`, which
`errors="coerce"` turns into NaT. -/
def parseDateString (s : String) : Option SimpleDate :=
  match (pyStrip s).data.splitOn '/' with
  | [a, b, c] =>
      match parseDigits a, parseDigits b, parseDigits c with
      | some d1, some d2, some y0 =>
          let y := expandYear y0 c.length
          if validDMY d1 d2 y then some ⟨y, d2, d1⟩
          else if validDMY d2 d1 y then some ⟨y, d1, d2⟩
          else none
      | _, _, _ => none
  | _ => none

/-- Date parsing of one cell (`_parse_date` applied pointwise): text is
parsed, an already-parsed date passes through, missing and anything else
becomes NaT (`Cell.nan`). -/
def parseDateCell (v : Cell) : Cell :=
  match v with
  | Cell.text s =>
      match parseDateString s with
      | some d => Cell.date d
      | none => Cell.nan
  | Cell.date d => Cell.date d
  | _ => Cell.nan

/-- `_store_name_last4`, src/streamlit_app.py lines 83-84:
`series.astype(str).str[-4:]` — render to text, keep the last 4 characters.
The result is always a present text cell. -/
def storeLast4Cell (v : Cell) : Cell :=
  Cell.text (pyLast4 (pyStrCell v))

/-- `_flatten_columns` on one label, src/streamlit_app.py lines 48-62: a
tuple label keeps the non-null parts whose `str(x).strip()` is nonempty and
joins them with `" | "` (empty result when no part survives); a scalar
label is `""` for null and the stripped text otherwise. -/
def flatten_one : RawHeader → String
  | RawHeader.tuple ls =>
      let parts := ((ls.filterMap id).map pyStrip).filter (fun s => s != "")
      if parts.isEmpty then "" else String.intercalate " | " parts
  | RawHeader.scalar none => ""
  | RawHeader.scalar (some s) => pyStrip s

/-- `_flatten_columns`, src/streamlit_app.py lines 48-62: flatten every
column label, keeping the number and order of columns. -/
def flatten_columns (cols : List RawHeader) : List String :=
  cols.map flatten_one

/-- Replace the cell at one column index, leaving the row otherwise
unchanged (the row-level effect of assigning to one data-frame column). -/
def modifyCell (f : Cell → Cell) : Nat → Row → Row
  | _, [] => []
  | 0, c :: r => f c :: r
  | n + 1, c :: r => c :: modifyCell f n r

/-- Map a function of the column index over a row, indices starting at `k`. -/
def mapWithIdx (f : Nat → Cell → Cell) : Nat → Row → Row
  | _, [] => []
  | k, c :: r => f k c :: mapWithIdx f (k + 1) r

/-- Does column index `i` name one of the 10 numeric columns?  Mirrors the
source's `[c for c in FINAL_COLS if c in NUMERIC_COLS]` after the positional
rename has made column `i`'s name `FINAL_COLS[i]`. -/
def isNumericIdx (i : Nat) : Bool :=
  match FINAL_COLS[i]? with
  | some c => NUMERIC_COLS.contains c
  | none => false

/-- `_coerce_numeric(df, [c for c in FINAL_COLS if c in NUMERIC_COLS])`
(src/streamlit_app.py lines 64-70 and 144) on one row: coerce exactly the
cells sitting in numeric columns. -/
def coerceRow (r : Row) : Row :=
  mapWithIdx (fun i v => if isNumericIdx i then toNumericCell v else v) 0 r

/-- The row predicate of
`df[df["Gross Sales"].notna() & (df["Gross Sales"] > 0)]`
(src/streamlit_app.py line 92): Gross Sales (column index 4) is a present
number and strictly positive.  NaN fails `notna` and NaN `> 0` is false. -/
def grossPositive (r : Row) : Bool :=
  match r[4]? with
  | some (Cell.num q) => decide (0 < q)
  | some _ => false
  | none => false

/-- Rows after the positional rename (`_rename_by_position` keeps the first
16 = `FINAL_COLS.length` columns of every row, line 79) and the whole-table
string cleanup (lines 130-132; every column is object dtype because the
sheet was read with `dtype=object`). -/
def cleanRows (t : RawTable) : List Row :=
  (t.rows.map (fun r => r.take FINAL_COLS.length)).map
    (fun r => r.map cleanupCell)

/-- Rows after `df.dropna(how="all")` (line 135): rows whose cells are all
missing are removed. -/
def nonEmptyRows (t : RawTable) : List Row :=
  (cleanRows t).filter (fun r => !(r.all isMissing))

/-- Rows after `df["Date"] = _parse_date(df["Date"])` (line 138); Date is
column index 3. -/
def datedRows (t : RawTable) : List Row :=
  (nonEmptyRows t).map (modifyCell parseDateCell 3)

/-- Rows after `df["Store Name"] = _store_name_last4(df["Store Name"])`
(line 141); Store Name is column index 2. -/
def truncatedRows (t : RawTable) : List Row :=
  (datedRows t).map (modifyCell storeLast4Cell 2)

/-- Rows after `_coerce_numeric` over the numeric columns (line 144). -/
def coercedRows (t : RawTable) : List Row :=
  (truncatedRows t).map coerceRow

/-- Rows after `_filter_gross_sales_numeric_positive` (lines 86-92, called
at line 147): Gross Sales is re-coerced in place, then only rows with a
present, strictly positive Gross Sales are kept. -/
def filteredRows (t : RawTable) : List Row :=
  ((coercedRows t).map (modifyCell toNumericCell 4)).filter grossPositive

/-- Rows after the final `df.dropna(how="all")` sweep (line 150). -/
def finalRows (t : RawTable) : List Row :=
  (filteredRows t).filter (fun r => !(r.all isMissing))

/-- The whole-row transformation applied between the first `dropna` and the
Gross Sales filter: date parse, store-name truncation, numeric coercion,
and the filter's in-place re-coercion of Gross Sales. -/
def transformRow (r : Row) : Row :=
  modifyCell toNumericCell 4
    (coerceRow (modifyCell storeLast4Cell 2 (modifyCell parseDateCell 3 r)))

/-- The full pipeline, src/streamlit_app.py lines 126-150.  The header is
flattened (line 126) and the first 16 columns are renamed positionally
(line 127); when the sheet has fewer than 16 columns the assignment
`df.columns = final_cols` in `_rename_by_position` raises pandas'
"Length mismatch" ValueError, modelled as the error branch — the app does
not catch it, so no output table is produced. -/
def normalize (t : RawTable) : Except String CanonicalTable :=
  let flat := flatten_columns t.headers
  if FINAL_COLS.length ≤ flat.length then
    Except.ok ⟨FINAL_COLS, finalRows t⟩
  else
    Except.error ("Length mismatch: Expected axis has " ++
      toString flat.length ++ " elements, new values have " ++
      toString FINAL_COLS.length ++ " elements")

theorem FINAL_COLS_length : FINAL_COLS.length = 16 := rfl

theorem length_modifyCell (f : Cell → Cell) :
    ∀ (n : Nat) (r : Row), (modifyCell f n r).length = r.length := by
  intro n r
  induction r generalizing n with
  | nil => cases n <;> rfl
  | cons c r ih =>
    cases n with
    | zero => simp [modifyCell]
    | succ m => simp [modifyCell, ih m]

theorem getElem?_modifyCell_self (f : Cell → Cell) :
    ∀ (n : Nat) (r : Row), (modifyCell f n r)[n]? = (r[n]?).map f := by
  intro n
  induction n with
  | zero => intro r; cases r <;> simp [modifyCell]
  | succ m ih =>
    intro r
    cases r with
    | nil => simp [modifyCell]
    | cons c r => simpa [modifyCell] using ih r

theorem getElem?_modifyCell_ne (f : Cell → Cell) :
    ∀ (n j : Nat) (r : Row), j ≠ n → (modifyCell f n r)[j]? = r[j]? := by
  intro n j r
  induction r generalizing n j with
  | nil => intro _; cases n <;> rfl
  | cons c r ih =>
    intro hne
    cases n with
    | zero =>
      cases j with
      | zero => exact absurd rfl hne
      | succ i => simp [modifyCell]
    | succ m =>
      cases j with
      | zero => simp [modifyCell]
      | succ i =>
        have : i ≠ m := fun h => hne (by rw [h])
        simpa [modifyCell] using ih m i this

theorem length_mapWithIdx (f : Nat → Cell → Cell) :
    ∀ (k : Nat) (r : Row), (mapWithIdx f k r).length = r.length := by
  intro k r
  induction r generalizing k with
  | nil => rfl
  | cons c r ih => simp [mapWithIdx, ih (k + 1)]

theorem getElem?_mapWithIdx (f : Nat → Cell → Cell) :
    ∀ (k : Nat) (r : Row) (j : Nat),
      (mapWithIdx f k r)[j]? = (r[j]?).map (f (k + j)) := by
  intro k r
  induction r generalizing k with
  | nil => intro j; simp [mapWithIdx]
  | cons c r ih =>
    intro j
    cases j with
    | zero => simp [mapWithIdx]
    | succ m =>
      have hk : k + 1 + m = k + (m + 1) := by omega
      simp only [mapWithIdx, List.getElem?_cons_succ, ih (k + 1) m, hk]

theorem length_coerceRow (r : Row) : (coerceRow r).length = r.length :=
  length_mapWithIdx _ 0 r

theorem getElem?_coerceRow (r : Row) (j : Nat) :
    (coerceRow r)[j]? =
      (r[j]?).map (fun v => if isNumericIdx j then toNumericCell v else v) := by
  simpa using getElem?_mapWithIdx _ 0 r j

theorem length_transformRow (r : Row) : (transformRow r).length = r.length := by
  unfold transformRow
  rw [length_modifyCell, length_coerceRow, length_modifyCell, length_modifyCell]

theorem getElem?_transformRow_store (r : Row) :
    (transformRow r)[2]? = (r[2]?).map storeLast4Cell := by
  unfold transformRow
  rw [getElem?_modifyCell_ne _ 4 2 _ (by decide), getElem?_coerceRow,
    getElem?_modifyCell_self, getElem?_modifyCell_ne _ 3 2 _ (by decide)]
  have h2 : isNumericIdx 2 = false := by decide
  cases r[2]? <;> simp [h2]

theorem finalRows_eq (t : RawTable) :
    finalRows t =
      (((nonEmptyRows t).map transformRow).filter grossPositive).filter
        (fun r => !(r.all isMissing)) := by
  unfold finalRows filteredRows coercedRows truncatedRows datedRows
  simp only [List.map_map]
  rfl

theorem mem_finalRows {t : RawTable} {r : Row} (hr : r ∈ finalRows t) :
    ∃ p, p ∈ nonEmptyRows t ∧ r = transformRow p ∧
      grossPositive r = true ∧ r.all isMissing = false := by
  rw [finalRows_eq] at hr
  rcases List.mem_filter.mp hr with ⟨hr1, hAll⟩
  rcases List.mem_filter.mp hr1 with ⟨hr2, hPos⟩
  rcases List.mem_map.mp hr2 with ⟨p, hp, hre⟩
  exact ⟨p, hp, hre.symm, hPos, by simpa using hAll⟩

theorem length_mem_nonEmptyRows {t : RawTable}
    (hw : ∀ row ∈ t.rows, 16 ≤ row.length) {p : Row}
    (hp : p ∈ nonEmptyRows t) : p.length = 16 := by
  have hp1 := (List.mem_filter.mp hp).1
  unfold cleanRows at hp1
  rcases List.mem_map.mp hp1 with ⟨q, hq, hqe⟩
  rcases List.mem_map.mp hq with ⟨row, hrow, hre⟩
  subst hqe hre
  simp only [List.length_map, List.length_take, FINAL_COLS_length]
  exact Nat.min_eq_left (hw row hrow)

theorem pyLast4_data (s : String) :
    (pyLast4 s).data = s.data.drop (s.data.length - 4) := rfl

theorem pyLast4_length (s : String) :
    (pyLast4 s).length = min 4 s.length := by
  show (s.data.drop (s.data.length - 4)).length = min 4 s.data.length
  rw [List.length_drop]
  omega

theorem pyLast4_suffix (s : String) : (pyLast4 s).data <:+ s.data :=
  List.drop_suffix _ _

theorem pyLast4_of_short (s : String) (h : s.length ≤ 4) : pyLast4 s = s := by
  have h4 : s.data.length - 4 = 0 := by
    have : s.data.length ≤ 4 := h
    omega
  unfold pyLast4
  rw [h4, List.drop_zero]

/-- Example input row for witnesses: text cells exactly as they sit in a
sheet read with `dtype=object`. -/
def exInputRow : Row :=
  [Cell.text "1", Cell.text "S01", Cell.text " SHOP-001 ",
   Cell.text "05/03/2024", Cell.text "1,200.50", Cell.text "10",
   Cell.text "0", Cell.text "0", Cell.text "0", Cell.text "0", Cell.text "0",
   Cell.text "T1", Cell.text "U", Cell.text "2", Cell.text "3",
   Cell.text "400"]

/-- Example all-whitespace row: eliminated by the first `dropna`. -/
def exBlankRow : Row := List.replicate 16 (Cell.text "  ")

/-- Example row with Gross Sales "0": eliminated by the positive filter. -/
def exZeroRow : Row :=
  [Cell.text "2", Cell.text "S02", Cell.text "X", Cell.text "05/03/2024",
   Cell.text "0", Cell.text "0", Cell.text "0", Cell.text "0", Cell.text "0",
   Cell.text "0", Cell.text "0", Cell.text "T1", Cell.text "U",
   Cell.text "2", Cell.text "3", Cell.text "400"]

/-- Example raw table with 16 columns and three rows. -/
def exTable : RawTable :=
  ⟨List.replicate 16 (RawHeader.scalar none),
   [exInputRow, exBlankRow, exZeroRow]⟩

/-- The single row the pipeline retains from `exTable`. -/
def exRow : Row :=
  [Cell.text "1", Cell.text "S01", Cell.text "-001",
   Cell.date ⟨2024, 3, 5⟩, Cell.num (mkRat 2401 2), Cell.num 10, Cell.num 0,
   Cell.num 0, Cell.num 0, Cell.num 0, Cell.num 0, Cell.text "T1",
   Cell.text "U", Cell.num 2, Cell.num 3, Cell.num 400]

/-- Example raw table with only 10 columns. -/
def shortTable : RawTable :=
  ⟨List.replicate 10 (RawHeader.scalar none), []⟩

/-- C1: every row of the pipeline's output has a Gross Sales cell (column
index 4) that is present, numeric and strictly greater than zero — never
missing, zero or negative. -/
theorem gross_sales_positive_invariant (t : RawTable) (r : Row)
    (hr : r ∈ finalRows t) :
    ∃ q : ℚ, r[4]? = some (Cell.num q) ∧ 0 < q ∧
      isMissing (Cell.num q) = false := by
  obtain ⟨p, hp, hre, hPos, hAll⟩ := mem_finalRows hr
  simp only [grossPositive] at hPos
  cases h4 : r[4]? with
  | none => rw [h4] at hPos; simp at hPos
  | some c =>
    rw [h4] at hPos
    cases c with
    | num q => exact ⟨q, by simp [h4], by simpa using hPos, rfl⟩
    | nan => simp at hPos
    | na => simp at hPos
    | text s => simp at hPos
    | date d => simp at hPos

/-- C1 witness: the invariant at the concrete retained row of `exTable`. -/
theorem gross_sales_positive_invariant_witness :
    ∃ q : ℚ, exRow[4]? = some (Cell.num q) ∧ 0 < q ∧
      isMissing (Cell.num q) = false :=
  gross_sales_positive_invariant exTable exRow (by decide)

/-- C2: for every input table with at least 16 columns the pipeline
succeeds, the output carries exactly the 16 field names of FINAL_COLS in
that order — regardless of the source header text — and every output row
has exactly 16 cells, columns beyond the 16th having been dropped. -/
theorem column_contract (t : RawTable) (hc : 16 ≤ t.headers.length)
    (hw : ∀ row ∈ t.rows, 16 ≤ row.length) :
    ∃ out : CanonicalTable, normalize t = Except.ok out ∧
      out.cols = ["Row No.", "Store Code", "Store Name", "Date",
        "Gross Sales", "Net Sales", "Discounted", "Item Void", "Void Value",
        "Item Refund", "Refund Value", "Terminal", "Unnamed", "Quantity",
        "Transaction", "Average Transaction Value"] ∧
      ∀ r ∈ out.rows, r.length = 16 := by
  refine ⟨⟨FINAL_COLS, finalRows t⟩, ?_, rfl, ?_⟩
  · have hcond : FINAL_COLS.length ≤ (flatten_columns t.headers).length := by
      unfold flatten_columns
      rw [List.length_map, FINAL_COLS_length]
      exact hc
    simp [normalize, hcond]
  · intro r hr
    obtain ⟨p, hp, hre, _, _⟩ := mem_finalRows hr
    rw [hre, length_transformRow]
    exact length_mem_nonEmptyRows hw hp

/-- C2 witness: the column contract at the concrete 16-column `exTable`. -/
theorem column_contract_witness :
    ∃ out : CanonicalTable, normalize exTable = Except.ok out ∧
      out.cols = ["Row No.", "Store Code", "Store Name", "Date",
        "Gross Sales", "Net Sales", "Discounted", "Item Void", "Void Value",
        "Item Refund", "Refund Value", "Terminal", "Unnamed", "Quantity",
        "Transaction", "Average Transaction Value"] ∧
      ∀ r ∈ out.rows, r.length = 16 :=
  column_contract exTable (by decide) (by decide)

/-- C4: a table with fewer than 16 columns after flattening makes the
pipeline raise the structural "Length mismatch" error (the uncaught
ValueError of `df.columns = final_cols`), producing no output table. -/
theorem short_table_structural_error (t : RawTable)
    (h : t.headers.length < 16) :
    normalize t = Except.error ("Length mismatch: Expected axis has " ++
      toString t.headers.length ++ " elements, new values have " ++
      toString FINAL_COLS.length ++ " elements") := by
  have hlen : (flatten_columns t.headers).length = t.headers.length := by
    unfold flatten_columns
    exact List.length_map _ _
  have hcond : ¬ FINAL_COLS.length ≤ (flatten_columns t.headers).length := by
    rw [hlen, FINAL_COLS_length]
    omega
  simp [normalize, hcond, hlen]
  rw [FINAL_COLS_length]
  exact h

/-- C4 witness: the structural error at a concrete 10-column table. -/
theorem short_table_structural_error_witness :
    ∃ msg, normalize shortTable = Except.error msg :=
  ⟨_, short_table_structural_error shortTable (by decide)⟩

/-- C8: no output row has all of its cells missing — every row of the
final table has at least one present cell. -/
theorem no_all_missing_output_row (t : RawTable) (r : Row)
    (hr : r ∈ finalRows t) : ∃ c ∈ r, isMissing c = false := by
  obtain ⟨p, hp, hre, hPos, hAll⟩ := mem_finalRows hr
  by_contra hcon
  push_neg at hcon
  have hall : r.all isMissing = true := by
    rw [List.all_eq_true]
    intro c hc
    cases h : isMissing c with
    | false => exact absurd h (hcon c hc)
    | true => rfl
  rw [hall] at hAll
  simp at hAll

/-- C8 witness: a present cell in the concrete retained row of `exTable`. -/
theorem no_all_missing_output_row_witness :
    ∃ c ∈ exRow, isMissing c = false :=
  no_all_missing_output_row exTable exRow (by decide)

/-- C3: for every output row there is a pre-truncation row (an element of
the table entering the store-name truncation stage) whose Store Name cell
the output's Store Name was computed from; whenever that pre-truncation
cell holds text `s`, the output Store Name is exactly the last
`min 4 (length s)` characters of `s` — a suffix of `s` of that length —
and is all of `s` when `s` has at most 4 characters. -/
theorem store_name_truncation_law (t : RawTable) (r : Row)
    (hr : r ∈ finalRows t) :
    ∃ d ∈ datedRows t, r[2]? = (d[2]?).map storeLast4Cell ∧
      ∀ s : String, d[2]? = some (Cell.text s) →
        r[2]? = some (Cell.text (pyLast4 s)) ∧
        (pyLast4 s).data <:+ s.data ∧
        (pyLast4 s).length = min 4 s.length ∧
        (s.length ≤ 4 → pyLast4 s = s) := by
  obtain ⟨p, hp, hre, _, _⟩ := mem_finalRows hr
  have hd2 : (modifyCell parseDateCell 3 p)[2]? = p[2]? :=
    getElem?_modifyCell_ne _ 3 2 p (by decide)
  have hr2 : r[2]? = (p[2]?).map storeLast4Cell := by
    rw [hre, getElem?_transformRow_store]
  refine ⟨modifyCell parseDateCell 3 p, ?_, by rw [hr2, hd2], ?_⟩
  · unfold datedRows
    exact List.mem_map_of_mem _ hp
  · intro s hs
    rw [hd2] at hs
    refine ⟨?_, pyLast4_suffix s, pyLast4_length s, pyLast4_of_short s⟩
    rw [hr2, hs]
    rfl

/-- C3 witness: the truncation law at the concrete retained row of
`exTable` (whose Store Name entered truncation as "SHOP-001"). -/
theorem store_name_truncation_law_witness :
    ∃ d ∈ datedRows exTable, exRow[2]? = (d[2]?).map storeLast4Cell ∧
      ∀ s : String, d[2]? = some (Cell.text s) →
        exRow[2]? = some (Cell.text (pyLast4 s)) ∧
        (pyLast4 s).data <:+ s.data ∧
        (pyLast4 s).length = min 4 s.length ∧
        (s.length ≤ 4 → pyLast4 s = s) :=
  store_name_truncation_law exTable exRow (by decide)

/-- C5: numeric coercion parses comma-stripped text into a number — the
text "1,200.50" becomes the number 1200.50 — any unparseable value becomes
the missing marker (never an error), and the coercion stage never changes
the number of rows. -/
theorem numeric_coercion_behavior :
    toNumericCell (Cell.text "1,200.50") = Cell.num (1200.5 : ℚ) ∧
    (∀ s q, parseFloat (stripCommas s) = some q →
      toNumericCell (Cell.text s) = Cell.num q) ∧
    (∀ s, parseFloat (stripCommas s) = none →
      toNumericCell (Cell.text s) = Cell.nan) ∧
    (∀ s, (∃ q, toNumericCell (Cell.text s) = Cell.num q) ∨
      toNumericCell (Cell.text s) = Cell.nan) ∧
    (∀ t : RawTable, (coercedRows t).length = (truncatedRows t).length) ∧
    NUMERIC_COLS.length = 10 := by
  refine ⟨?_, ?_, ?_, ?_, ?_, rfl⟩
  · have h1 : toNumericCell (Cell.text "1,200.50") =
        Cell.num (mkRat 2401 2) := by decide
    have h2 : mkRat 2401 2 = (1200.5 : ℚ) := by
      rw [Rat.mkRat_eq_div]
      norm_num
    rw [h1, h2]
  · intro s q h
    simp [toNumericCell, h]
  · intro s h
    simp [toNumericCell, h]
  · intro s
    cases h : parseFloat (stripCommas s) with
    | none => right; simp [toNumericCell, h]
    | some q => left; exact ⟨q, by simp [toNumericCell, h]⟩
  · intro t
    unfold coercedRows
    exact List.length_map _ _

/-- C5 witness: coercion at the concrete parseable text "1,200.50" and at
the concrete unparseable text "abc". -/
theorem numeric_coercion_behavior_witness :
    toNumericCell (Cell.text "1,200.50") = Cell.num (1200.5 : ℚ) ∧
    toNumericCell (Cell.text "abc") = Cell.nan :=
  ⟨numeric_coercion_behavior.1,
   numeric_coercion_behavior.2.2.1 "abc" (by decide)⟩

/-- C6: numeric coercion is idempotent — coercing twice equals coercing
once on every cell, and an already-numeric cell is returned identically. -/
theorem numeric_coercion_idempotent :
    (∀ v : Cell, toNumericCell (toNumericCell v) = toNumericCell v) ∧
    ∀ q : ℚ, toNumericCell (Cell.num q) = Cell.num q := by
  constructor
  · intro v
    cases v with
    | text s =>
      cases h : parseFloat (stripCommas s) with
      | none => simp [toNumericCell, h]
      | some q => simp [toNumericCell, h]
    | nan => rfl
    | na => rfl
    | num q => rfl
    | date d => rfl
  · intro q
    rfl

/-- C7: date parsing is day-first — "05/03/2024" parses to day 5, month 3,
year 2024 — and on any text it either succeeds with a date or yields the
missing marker, never an error. -/
theorem date_parsing_dayfirst :
    parseDateCell (Cell.text "05/03/2024") = Cell.date ⟨2024, 3, 5⟩ ∧
    (∀ s : String, parseDateCell (Cell.text s) = Cell.nan ∨
      ∃ d : SimpleDate, parseDateCell (Cell.text s) = Cell.date d) ∧
    parseDateCell (Cell.text "hello") = Cell.nan := by
  refine ⟨by decide, ?_, by decide⟩
  intro s
  cases h : parseDateString s with
  | none => left; simp [parseDateCell, h]
  | some d => right; exact ⟨d, by simp [parseDateCell, h]⟩

/-- Helper for C9: when every label of a tuple is null or strips to the
empty string, the list of surviving parts is empty. -/
theorem blank_parts_nil (ls : List (Option String)) :
    (∀ o ∈ ls, pyStrip (o.getD "") = "") →
    ((ls.filterMap id).map pyStrip).filter (fun s => s != "") = [] := by
  intro h
  simp only [List.filter_eq_nil_iff, List.mem_map, List.mem_filterMap, id]
  rintro x ⟨a, ⟨o, ho, hoa⟩, hax⟩
  subst hoa hax
  simpa using h (some a) ho

/-- C9: header flattening preserves the number of columns, maps each column
label independently and in order, sends a tuple whose labels are all null
or blank to the empty string, and joins surviving trimmed labels with
" | ". -/
theorem header_flattening_behavior :
    (∀ cols : List RawHeader, (flatten_columns cols).length = cols.length) ∧
    (∀ (cols : List RawHeader) (i : Nat),
      (flatten_columns cols)[i]? = (cols[i]?).map flatten_one) ∧
    (∀ ls : List (Option String), (∀ o ∈ ls, pyStrip (o.getD "") = "") →
      flatten_one (RawHeader.tuple ls) = "") ∧
    flatten_one (RawHeader.tuple [some " Store ", none, some "Code"]) =
      "Store | Code" := by
  refine ⟨?_, ?_, ?_, by decide⟩
  · intro cols
    unfold flatten_columns
    exact List.length_map _ _
  · intro cols i
    unfold flatten_columns
    exact List.getElem?_map flatten_one cols i
  · intro ls h
    simp only [flatten_one]
    rw [blank_parts_nil ls h]
    rfl

/-- C9 witness: flattening a concrete all-blank tuple label yields "". -/
theorem header_flattening_behavior_witness :
    flatten_one (RawHeader.tuple [none, some "   "]) = "" :=
  header_flattening_behavior.2.2.1 [none, some "   "] (by decide)

/-- C10: the Store Name cell of every output row is a present text cell of
at most 4 characters, never a missing marker; truncation renders the
missing marker pandas NA as the text "<NA>" and keeps its last 4
characters, so even a blank source cell yields the present text "<NA>". -/
theorem store_name_never_missing (t : RawTable)
    (hw : ∀ row ∈ t.rows, 16 ≤ row.length) (r : Row)
    (hr : r ∈ finalRows t) :
    (∃ s : String, r[2]? = some (Cell.text s) ∧ s.length ≤ 4 ∧
      isMissing (Cell.text s) = false) ∧
    storeLast4Cell Cell.na = Cell.text "<NA>" ∧
    pyStrCell Cell.na = "<NA>" := by
  obtain ⟨p, hp, hre, _, _⟩ := mem_finalRows hr
  have hlen : p.length = 16 := length_mem_nonEmptyRows hw hp
  cases hv : p[2]? with
  | none =>
    have h2 : p.length ≤ 2 := by
      simpa using List.getElem?_eq_none_iff.mp hv
    omega
  | some v =>
    refine ⟨⟨pyLast4 (pyStrCell v), ?_, ?_, rfl⟩, rfl, rfl⟩
    · rw [hre, getElem?_transformRow_store, hv]
      rfl
    · have h4 := pyLast4_length (pyStrCell v)
      omega

/-- C10 witness: the present Store Name cell of the concrete retained row
of `exTable`. -/
theorem store_name_never_missing_witness :
    (∃ s : String, exRow[2]? = some (Cell.text s) ∧ s.length ≤ 4 ∧
      isMissing (Cell.text s) = false) ∧
    storeLast4Cell Cell.na = Cell.text "<NA>" ∧
    pyStrCell Cell.na = "<NA>" :=
  store_name_never_missing exTable (by decide) exRow (by decide)

end SalesNormalizer
